import Mathlib

/-!
Shallow embedding of the polyjson image polygon annotator
(src/unnamed/part_000, src/src/App.tsx, src/src/util/index.ts).

Conventions of the embedding:
* JavaScript numbers are modelled as real numbers (`ℝ`); opacity values,
  which never mix with coordinates, are modelled as rationals (`ℚ`) and
  colour channels as naturals.
* An RGBA colour string "rgba(r, g, b, a)" is modelled by the record of its
  four components (`Rgba`).  `generateColor` always emits a string of exactly
  this shape and the regular expression in `darkenColor` recovers exactly
  these four components from it, so `darkenColor` is embedded as the total
  function on parsed colours given by its match branch.
* The calls to `Math.random()` are modelled by oracle-supplied seeds: a seed
  `s` stands for the sampled value `Math.floor(Math.random() * n) = s % n`.
* React `useState` setters are modelled by explicit state passing: every
  event handler maps a `State` to the updated `State` together with the list
  of toast notifications it emits.
* The clipboard is external; `exportJSON` returns the JSON document it
  writes (as a JSON syntax tree, `Json`) next to the unchanged state.
-/

namespace Polyjson

/-- A point in image pixel space (part_000 line 5: `type Point`). -/
structure Point where
  x : ℝ
  y : ℝ

/-- A polygon is an ordered list of points (part_000 line 6). -/
abbrev Polygon := List Point

/-- A parsed RGBA colour: three integer channels and an opacity. -/
structure Rgba where
  r : ℕ
  g : ℕ
  b : ℕ
  a : ℚ

/-- util/index.ts `generateColor`: three channels sampled uniformly from
[0,255] (`Math.floor(Math.random() * 256)`, modelled by the seeds mod 256)
paired with the given alpha. -/
def generateColor (rSeed gSeed bSeed : ℕ) (alpha : ℚ) : Rgba :=
  { r := rSeed % 256, g := gSeed % 256, b := bSeed % 256, a := alpha }

/-- util/index.ts `darkenColor`: keeps the three channels and raises the
opacity by `increase`, clamped at 1 (`a = Math.min(a + increase, 1)`). -/
def darkenColor (c : Rgba) (increase : ℚ) : Rgba :=
  { r := c.r, g := c.g, b := c.b, a := min (c.a + increase) 1 }

/-- util/index.ts: the alphabet used by `generateId`. -/
def characters : String :=
  "ABCDEFGHIJKLMNOPQRSTUVWXYZabcdefghijklmnopqrstuvwxyz0123456789"

/-- util/index.ts `generateId`: one character per loop iteration, the i-th
drawn at index `Math.floor(Math.random() * 62)`, modelled by `seeds.getD i 0
% 62`; the call sites use the default length 8. -/
def generateId (seeds : List ℕ) (length : ℕ) : String :=
  String.mk ((List.range length).map fun i =>
    characters.toList.getD ((seeds.getD i 0) % characters.length) 'A')

/-- The random draws consumed by one finalisation: three colour-channel
seeds for `generateColor` and the id seeds for `generateId`. -/
structure Rand where
  rSeed : ℕ
  gSeed : ℕ
  bSeed : ℕ
  idSeeds : List ℕ

/-- part_000 line 18: `type DrawingMode = "line" | "rectangle" | "circle"`. -/
inductive DrawingMode where
  | line
  | rectangle
  | circle
deriving DecidableEq

/-- The literal string value of a drawing mode. -/
def DrawingMode.name : DrawingMode → String
  | .line => "line"
  | .rectangle => "rectangle"
  | .circle => "circle"

/-- part_000 lines 8-16: `interface PolygonData`.  The optional `label` and
`shape` fields are always assigned at creation, so they are plain fields. -/
structure PolygonData where
  id : String
  label : String
  shape : String
  fillColor : Rgba
  strokeColor : Rgba
  coords : List ℝ
  polygon : Polygon

/-- A toast notification shown to the user. -/
inductive Toast where
  | success (msg : String)
  | error (msg : String)
  | plain (msg : String)
deriving DecidableEq

/-- The component state of `ImagePolygonAnnotator` (part_000 lines 21-27). -/
structure State where
  imageSrc : Option String
  polygons : List PolygonData
  currentPolygon : List Point
  drawingMode : DrawingMode
  label : String
  startPoint : Option Point
  dragShape : Option Polygon

/-- The initial component state (the `useState` initialisers). -/
def initState : State :=
  { imageSrc := none, polygons := [], currentPolygon := [],
    drawingMode := .line, label := "", startPoint := none, dragShape := none }

/-- part_000 `handleImageUpload` (lines 41-54): an image file replaces the
image and resets both shape collections; anything else only raises an
error toast. -/
def handleImageUpload (st : State) (isImageFile : Bool) (src : String) :
    State × List Toast :=
  if isImageFile then
    ({ st with imageSrc := some src, polygons := [], currentPolygon := [] }, [])
  else
    (st, [Toast.error "Please upload an image file"])

/-- The displayed bounding box of the canvas (`getBoundingClientRect`). -/
structure BoundingRect where
  left : ℝ
  top : ℝ
  width : ℝ
  height : ℝ

/-- The canvas: native pixel dimensions plus its displayed bounding box. -/
structure Canvas where
  width : ℝ
  height : ℝ
  rect : BoundingRect

/-- part_000 `getCanvasCoordinates` (lines 56-66): maps viewport coordinates
to native pixel coordinates, or returns the origin when the canvas ref is
not attached. -/
noncomputable def getCanvasCoordinates (canvas : Option Canvas)
    (clientX clientY : ℝ) : Point :=
  match canvas with
  | none => { x := 0, y := 0 }
  | some c =>
    let scaleX := c.width / c.rect.width
    let scaleY := c.height / c.rect.height
    { x := (clientX - c.rect.left) * scaleX,
      y := (clientY - c.rect.top) * scaleY }

/-- part_000 `handleMouseDown` (lines 68-77), taking the already-mapped
canvas point: in line mode append a vertex, otherwise record the start
point and reset the preview. -/
def handleMouseDown (st : State) (p : Point) : State × List Toast :=
  match st.drawingMode with
  | .line => ({ st with currentPolygon := st.currentPolygon ++ [p] }, [])
  | _ => ({ st with startPoint := some p, dragShape := none }, [])

/-- part_000 `handleMouseUp` (lines 79-97): in a drag mode with a non-null
preview and start point, finalise the preview as a new `PolygonData`
(fill alpha forced to 0.5, stroke derived by `darkenColor … 1`). -/
def handleMouseUp (st : State) (rnd : Rand) : State × List Toast :=
  match st.drawingMode, st.dragShape, st.startPoint with
  | .line, _, _ => (st, [])
  | _, none, _ => (st, [])
  | _, _, none => (st, [])
  | mode, some shape, some _ =>
    let fillColor := generateColor rnd.rSeed rnd.gSeed rnd.bSeed (1/2)
    ({ st with
        polygons := st.polygons ++ [{
          id := generateId rnd.idSeeds 8,
          label := st.label,
          shape := mode.name,
          fillColor := fillColor,
          strokeColor := darkenColor fillColor 1,
          coords := shape.flatMap fun pt => [pt.x, pt.y],
          polygon := shape }],
        dragShape := none,
        startPoint := none,
        label := "" }, [])

/-- part_000 lines 106-112: the 4-vertex axis-aligned rectangle preview. -/
def rectangleShape (s e : Point) : Polygon :=
  [s, { x := e.x, y := s.y }, e, { x := s.x, y := e.y }]

/-- part_000 lines 113-126: the 32-vertex ellipse approximation inscribed in
the bounding box of `s` and `e`; vertex `i` is at angle `(i/32)·π·2`. -/
noncomputable def circleShape (s e : Point) : Polygon :=
  let radiusX := (e.x - s.x) / 2
  let radiusY := (e.y - s.y) / 2
  let centerX := s.x + radiusX
  let centerY := s.y + radiusY
  (List.range 32).map fun i =>
    let angle := ((i : ℝ) / 32) * Real.pi * 2
    { x := centerX + radiusX * Real.cos angle,
      y := centerY + radiusY * Real.sin angle }

/-- part_000 `handleMouseMove` (lines 99-129), taking the mapped point: with
a start point in a drag mode, recompute the preview shape. -/
noncomputable def handleMouseMove (st : State) (p : Point) :
    State × List Toast :=
  match st.startPoint, st.drawingMode with
  | none, _ => (st, [])
  | some _, .line => (st, [])
  | some s, .rectangle => ({ st with dragShape := some (rectangleShape s p) }, [])
  | some s, .circle => ({ st with dragShape := some (circleShape s p) }, [])

/-- part_000 `completePolygon` (lines 131-151): with at least 3 captured
points, finalise the freehand polygon (shape tag "poly", fill alpha 0.5,
stroke derived) and clear the buffer; otherwise refuse with an error toast
and leave the state untouched. -/
def completePolygon (st : State) (rnd : Rand) : State × List Toast :=
  if 3 ≤ st.currentPolygon.length then
    let fillColor := generateColor rnd.rSeed rnd.gSeed rnd.bSeed (1/2)
    ({ st with
        polygons := st.polygons ++ [{
          id := generateId rnd.idSeeds 8,
          label := st.label,
          shape := "poly",
          fillColor := fillColor,
          strokeColor := darkenColor fillColor 1,
          coords := st.currentPolygon.flatMap fun pt => [pt.x, pt.y],
          polygon := st.currentPolygon }],
        currentPolygon := [],
        label := "" }, [Toast.success "Polygon completed"])
  else
    (st, [Toast.error "Need at least 3 points to complete a polygon"])

/-- part_000 `clearPolygons` (lines 153-158). -/
def clearPolygons (st : State) : State × List Toast :=
  ({ st with polygons := [], currentPolygon := [] },
   [Toast.success "Polygons cleared"])

/-- part_000 `clearCurrent` (lines 160-164). -/
def clearCurrent (st : State) : State × List Toast :=
  ({ st with currentPolygon := [] }, [Toast.plain "Drawing cleared"])

/-- The mode `select` element updating the `drawingMode` state. -/
def setDrawingMode (st : State) (m : DrawingMode) : State × List Toast :=
  ({ st with drawingMode := m }, [])

/-- The label `input` element updating the `label` state. -/
def setLabelText (st : State) (s : String) : State × List Toast :=
  ({ st with label := s }, [])

/-- A JSON value, the syntax tree of the document `JSON.stringify` prints;
number leaves carry the real value whose decimal rendering is printed. -/
inductive Json where
  | str (s : String)
  | num (r : ℝ)
  | arr (elems : List Json)
  | obj (fields : List (String × Json))

/-- Decimal digits of the fractional part of a rational (fuelled). -/
def fracDigits : ℕ → ℚ → String
  | 0, _ => ""
  | fuel + 1, q =>
    if q = 0 then ""
    else
      let d : ℤ := Int.floor (q * 10)
      toString d ++ fracDigits fuel (q * 10 - (d : ℚ))

/-- Decimal rendering of a rational opacity, as JavaScript prints it for
the opacities that occur (integers print bare, fractions with a point). -/
def decimalRepr (q : ℚ) : String :=
  if q.den = 1 then toString q.num
  else toString (Int.floor q) ++ "." ++ fracDigits 32 (q - (Int.floor q : ℚ))

/-- The colour string `"rgba(r, g, b, a)"` built by `generateColor` and
`darkenColor`. -/
def rgbaRepr (c : Rgba) : String :=
  "rgba(" ++ toString c.r ++ ", " ++ toString c.g ++ ", " ++ toString c.b ++
    ", " ++ decimalRepr c.a ++ ")"

/-- JSON form of a point, `{"x": …, "y": …}`. -/
def encodePoint (p : Point) : Json :=
  .obj [("x", .num p.x), ("y", .num p.y)]

/-- JSON form of a `PolygonData` record, fields in declaration order as
`JSON.stringify` prints them. -/
def encodePolygonData (p : PolygonData) : Json :=
  .obj [("id", .str p.id),
        ("label", .str p.label),
        ("shape", .str p.shape),
        ("fillColor", .str (rgbaRepr p.fillColor)),
        ("strokeColor", .str (rgbaRepr p.strokeColor)),
        ("coords", .arr (p.coords.map Json.num)),
        ("polygon", .arr (p.polygon.map encodePoint))]

/-- The document `JSON.stringify({ polygons, currentPolygon }, null, 2)`
serialises (part_000 lines 166-171). -/
def exportDoc (st : State) : Json :=
  .obj [("polygons", .arr (st.polygons.map encodePolygonData)),
        ("currentPolygon", .arr (st.currentPolygon.map encodePoint))]

/-- part_000 `exportJSON`: writes the document to the clipboard (external)
and raises a success toast; the component state is not touched, so the
handler returns it unchanged next to the document it wrote. -/
def exportJSON (st : State) : State × Json × List Toast :=
  (st, exportDoc st, [Toast.success "JSON copied to clipboard"])

/-- The top-level field names of a JSON object. -/
def topKeys : Json → List String
  | .obj fields => fields.map Prod.fst
  | _ => []

/-- Look up a field of a JSON object. -/
def getField (j : Json) (key : String) : Option Json :=
  match j with
  | .obj fields => fields.lookup key
  | _ => none

/-- Read a JSON number leaf. -/
def asNum : Json → Option ℝ
  | .num r => some r
  | _ => none

/-- Decode every element of a JSON array, failing if any element fails. -/
def decodeArr {α : Type} (f : Json → Option α) : List Json → Option (List α)
  | [] => some []
  | j :: rest =>
    match f j, decodeArr f rest with
    | some a, some as => some (a :: as)
    | _, _ => none

/-- Parse a point object back from its JSON form. -/
def decodePoint (j : Json) : Option Point :=
  match getField j "x", getField j "y" with
  | some (.num x), some (.num y) => some { x := x, y := y }
  | _, _ => none

/-- Parse the label and flattened coordinates back from the JSON form of an
exported polygon record. -/
def decodeEntry (j : Json) : Option (String × List ℝ) :=
  match getField j "label", getField j "coords" with
  | some (.str lbl), some (.arr cj) =>
    match decodeArr asNum cj with
    | some cs => some (lbl, cs)
    | none => none
  | _, _ => none

/-- Parse an exported document back into the labels and coordinate
sequences of its polygons and the raw points of the current polygon. -/
def decodeExport (j : Json) :
    Option (List (String × List ℝ) × List Point) :=
  match getField j "polygons", getField j "currentPolygon" with
  | some (.arr pj), some (.arr cj) =>
    match decodeArr decodeEntry pj, decodeArr decodePoint cj with
    | some ps, some cs => some (ps, cs)
    | _, _ => none
  | _, _ => none

/-- A user interaction, carrying the canvas point the coordinate mapper
produced for it and the random draws the handler will consume. -/
inductive Event where
  | imageUpload (isImageFile : Bool) (src : String)
  | mouseDown (p : Point)
  | mouseMove (p : Point)
  | mouseUp (rnd : Rand)
  | complete (rnd : Rand)
  | clearAll
  | clearCurrentShape
  | setMode (m : DrawingMode)
  | setLabelEdit (s : String)
  | exportRequest

/-- Dispatch one event to its handler. -/
noncomputable def step (st : State) (e : Event) : State × List Toast :=
  match e with
  | .imageUpload b src => handleImageUpload st b src
  | .mouseDown p => handleMouseDown st p
  | .mouseMove p => handleMouseMove st p
  | .mouseUp rnd => handleMouseUp st rnd
  | .complete rnd => completePolygon st rnd
  | .clearAll => clearPolygons st
  | .clearCurrentShape => clearCurrent st
  | .setMode m => setDrawingMode st m
  | .setLabelEdit s => setLabelText st s
  | .exportRequest => ((exportJSON st).1, (exportJSON st).2.2)

/-- Run a session: fold the events over the state. -/
noncomputable def run (st : State) : List Event → State
  | [] => st
  | e :: evs => run (step st e).1 evs

/-- The identifier an event would attach to a polygon it finalises
(`generateId` at the two finalisation sites). -/
def eventAppendIds (e : Event) : List String :=
  match e with
  | .mouseUp rnd => [generateId rnd.idSeeds 8]
  | .complete rnd => [generateId rnd.idSeeds 8]
  | _ => []

/-- The session invariant relating every finalised polygon to the way the
finalisation sites build it: coordinates are the flattened vertex list, the
stroke colour is derived from the 0.5-alpha fill by `darkenColor … 1`, the
vertex list is non-empty, and any drag preview is non-empty. -/
def Inv (st : State) : Prop :=
  (∀ p ∈ st.polygons,
      p.coords = p.polygon.flatMap (fun pt => [pt.x, pt.y]) ∧
      p.strokeColor = darkenColor p.fillColor 1 ∧
      p.fillColor.a = 1/2 ∧
      p.polygon ≠ []) ∧
  (∀ l, st.dragShape = some l → l ≠ [])

end Polyjson

namespace PolyjsonApp

/-- src/src/App.tsx lines 8-18: `interface PolygonData` of the freehand-only
component. -/
structure PolygonData where
  id : String
  title : String
  shape : String
  name : String
  fillColor : Polyjson.Rgba
  strokeColor : Polyjson.Rgba
  coords : List ℝ
  polygon : Polyjson.Polygon
  prefillColor : String

/-- The component state of App.tsx (lines 21-24). -/
structure State where
  imageSrc : Option String
  polygons : List PolygonData
  currentPolygon : List Polyjson.Point
  isDrawing : Bool

/-- App.tsx `completePolygon` (lines 68-91): with at least 3 captured points
finalise the freehand polygon (fill alpha 0.2, stroke derived, sequence
number as name) and reset the buffer; otherwise refuse with an error toast
and leave the state untouched. -/
def completePolygon (st : State) (rnd : Polyjson.Rand) :
    State × List Polyjson.Toast :=
  if 3 ≤ st.currentPolygon.length then
    let fillColor := Polyjson.generateColor rnd.rSeed rnd.gSeed rnd.bSeed (1/5)
    ({ st with
        polygons := st.polygons ++ [{
          id := Polyjson.generateId rnd.idSeeds 8,
          title := "Polygon",
          shape := "poly",
          name := toString (st.polygons.length + 1),
          fillColor := fillColor,
          strokeColor := Polyjson.darkenColor fillColor 1,
          coords := st.currentPolygon.flatMap fun pt => [pt.x, pt.y],
          polygon := st.currentPolygon,
          prefillColor := "red" }],
        currentPolygon := [],
        isDrawing := false },
     [Polyjson.Toast.success "Polygon completed"])
  else
    (st, [Polyjson.Toast.error "Need at least 3 points to complete a polygon"])

end PolyjsonApp

namespace Polyjson

/-- A fixed random draw: all seeds 0 (it yields the id "AAAAAAAA"). -/
def randA : Rand := { rSeed := 0, gSeed := 0, bSeed := 0,
                      idSeeds := [0, 0, 0, 0, 0, 0, 0, 0] }

/-- A second fixed random draw (it yields the id "BBBBBBBB"). -/
def randB : Rand := { rSeed := 0, gSeed := 0, bSeed := 0,
                      idSeeds := [1, 1, 1, 1, 1, 1, 1, 1] }

/-- A concrete triangle in freehand order. -/
def triangle : List Point :=
  [{ x := 0, y := 0 }, { x := 1, y := 0 }, { x := 0, y := 1 }]

/-- Three freehand clicks capturing `triangle` (the initial mode is line). -/
def clickEvents : List Event :=
  [Event.mouseDown { x := 0, y := 0 },
   Event.mouseDown { x := 1, y := 0 },
   Event.mouseDown { x := 0, y := 1 }]

/-- Capture a triangle and complete it with draw `randA`. -/
def evsOne : List Event := clickEvents ++ [Event.complete randA]

/-- Two completed triangles whose id draws coincide. -/
def evsTwoDup : List Event :=
  evsOne ++ clickEvents ++ [Event.complete randA]

/-- Two completed triangles with distinct id draws. -/
def evsTwo : List Event :=
  evsOne ++ clickEvents ++ [Event.complete randB]

/-- The polygon record finalised by `evsOne`. -/
def pdA : PolygonData :=
  { id := generateId randA.idSeeds 8,
    label := "",
    shape := "poly",
    fillColor := generateColor 0 0 0 (1/2),
    strokeColor := darkenColor (generateColor 0 0 0 (1/2)) 1,
    coords := [0, 0, 1, 0, 0, 1],
    polygon := triangle }

/-- An initial-mode state holding only two captured points. -/
def stTwoPoints : State :=
  { initState with currentPolygon := [{ x := 0, y := 0 }, { x := 1, y := 0 }] }

/-- An initial-mode state holding the captured triangle. -/
def stTriangle : State := { initState with currentPolygon := triangle }

/-- A rectangle-mode state mid-drag with start point (10,10). -/
def stRect : State :=
  { initState with drawingMode := .rectangle,
                   startPoint := some { x := 10, y := 10 } }

/-- A circle-mode state mid-drag with start point (0,0). -/
def stCircle : State :=
  { initState with drawingMode := .circle,
                   startPoint := some { x := 0, y := 0 } }

/-- A canvas displayed at its native 100 by 80 size, offset by (5,7). -/
def canvasOneToOne : Canvas :=
  { width := 100, height := 80,
    rect := { left := 5, top := 7, width := 100, height := 80 } }

end Polyjson

namespace PolyjsonApp

/-- An App.tsx state holding the captured triangle. -/
def stTriangle : State :=
  { imageSrc := none, polygons := [], currentPolygon := Polyjson.triangle,
    isDrawing := true }

end PolyjsonApp

namespace Polyjson

/-- The invariant holds initially. -/
theorem inv_init : Inv initState := by
  constructor
  · intro p hp; simp [initState] at hp
  · intro l hl; simp [initState] at hl

/-- The invariant is preserved by every event. -/
theorem inv_step (st : State) (e : Event) (h : Inv st) : Inv (step st e).1 := by
  obtain ⟨img, polys, cur, mode, lbl, sp, ds⟩ := st
  obtain ⟨hpoly, hdrag⟩ := h
  cases e with
  | imageUpload b src =>
    cases b with
    | true =>
      refine ⟨?_, ?_⟩
      · intro p hp; simp [step, handleImageUpload] at hp
      · intro l hl; exact hdrag l hl
    | false =>
      exact ⟨hpoly, hdrag⟩
  | mouseDown p =>
    cases mode with
    | line =>
      refine ⟨hpoly, ?_⟩
      · intro l hl; exact hdrag l hl
    | rectangle =>
      refine ⟨hpoly, ?_⟩
      · intro l hl; simp [step, handleMouseDown] at hl
    | circle =>
      refine ⟨hpoly, ?_⟩
      · intro l hl; simp [step, handleMouseDown] at hl
  | mouseMove p =>
    cases sp with
    | none => exact ⟨hpoly, hdrag⟩
    | some s =>
      cases mode with
      | line => exact ⟨hpoly, hdrag⟩
      | rectangle =>
        refine ⟨hpoly, ?_⟩
        intro l hl
        simp [step, handleMouseMove] at hl
        subst hl
        simp [rectangleShape]
      | circle =>
        refine ⟨hpoly, ?_⟩
        intro l hl
        simp [step, handleMouseMove] at hl
        subst hl
        simp [circleShape]
        exact ⟨0, by norm_num⟩
  | mouseUp rnd =>
    cases mode with
    | line =>
      refine ⟨?_, ?_⟩
      · intro p hp
        exact hpoly p (by simpa [step, handleMouseUp] using hp)
      · intro l hl
        exact hdrag l (by simpa [step, handleMouseUp] using hl)
    | rectangle =>
      cases ds with
      | none =>
        refine ⟨?_, ?_⟩
        · intro p hp
          exact hpoly p (by simpa [step, handleMouseUp] using hp)
        · intro l hl
          simp [step, handleMouseUp] at hl
      | some shape =>
        cases sp with
        | none =>
          refine ⟨?_, ?_⟩
          · intro p hp
            exact hpoly p (by simpa [step, handleMouseUp] using hp)
          · intro l hl
            exact hdrag l (by simpa [step, handleMouseUp] using hl)
        | some s =>
          refine ⟨?_, ?_⟩
          · intro p hp
            simp [step, handleMouseUp] at hp
            rcases hp with hp | hp
            · exact hpoly p hp
            · subst hp
              exact ⟨rfl, rfl, by norm_num [generateColor], hdrag shape rfl⟩
          · intro l hl; simp [step, handleMouseUp] at hl
    | circle =>
      cases ds with
      | none =>
        refine ⟨?_, ?_⟩
        · intro p hp
          exact hpoly p (by simpa [step, handleMouseUp] using hp)
        · intro l hl
          simp [step, handleMouseUp] at hl
      | some shape =>
        cases sp with
        | none =>
          refine ⟨?_, ?_⟩
          · intro p hp
            exact hpoly p (by simpa [step, handleMouseUp] using hp)
          · intro l hl
            exact hdrag l (by simpa [step, handleMouseUp] using hl)
        | some s =>
          refine ⟨?_, ?_⟩
          · intro p hp
            simp [step, handleMouseUp] at hp
            rcases hp with hp | hp
            · exact hpoly p hp
            · subst hp
              exact ⟨rfl, rfl, by norm_num [generateColor], hdrag shape rfl⟩
          · intro l hl; simp [step, handleMouseUp] at hl
  | complete rnd =>
    by_cases hl3 : 3 ≤ cur.length
    · refine ⟨?_, ?_⟩
      · intro p hp
        simp [step, completePolygon, hl3] at hp
        rcases hp with hp | hp
        · exact hpoly p hp
        · subst hp
          refine ⟨rfl, rfl, by norm_num [generateColor], ?_⟩
          show cur ≠ []
          intro hnil
          subst hnil
          simp at hl3
      · intro l hl
        simp [step, completePolygon, hl3] at hl
        exact hdrag l hl
    · simp only [step, completePolygon, if_neg hl3]
      exact ⟨hpoly, hdrag⟩
  | clearAll =>
    refine ⟨?_, ?_⟩
    · intro p hp; simp [step, clearPolygons] at hp
    · intro l hl; exact hdrag l hl
  | clearCurrentShape => exact ⟨hpoly, hdrag⟩
  | setMode m => exact ⟨hpoly, hdrag⟩
  | setLabelEdit s => exact ⟨hpoly, hdrag⟩
  | exportRequest => exact ⟨hpoly, hdrag⟩

/-- The invariant is preserved by any event sequence. -/
theorem inv_run (evs : List Event) (st : State) (h : Inv st) :
    Inv (run st evs) := by
  induction evs generalizing st with
  | nil => exact h
  | cons e rest ih => exact ih (step st e).1 (inv_step st e h)

/-- The invariant holds in every reachable state. -/
theorem inv_reachable (evs : List Event) : Inv (run initState evs) :=
  inv_run evs initState inv_init

/-- One step extends the list of polygon identifiers by at most the
identifier the event draws. -/
theorem step_ids_sublist (st : State) (e : Event) :
    List.Sublist ((step st e).1.polygons.map PolygonData.id)
      (st.polygons.map PolygonData.id ++ eventAppendIds e) := by
  obtain ⟨img, polys, cur, mode, lbl, sp, ds⟩ := st
  cases e with
  | imageUpload b src =>
    cases b with
    | false =>
      simpa [step, handleImageUpload, eventAppendIds] using
        List.Sublist.refl (polys.map PolygonData.id)
    | true => simp [step, handleImageUpload, eventAppendIds]
  | mouseDown p =>
    cases mode <;>
      simpa [step, handleMouseDown, eventAppendIds] using
        List.Sublist.refl (polys.map PolygonData.id)
  | mouseMove p =>
    cases sp with
    | none =>
      simpa [step, handleMouseMove, eventAppendIds] using
        List.Sublist.refl (polys.map PolygonData.id)
    | some s =>
      cases mode <;>
        simpa [step, handleMouseMove, eventAppendIds] using
          List.Sublist.refl (polys.map PolygonData.id)
  | mouseUp rnd =>
    cases mode with
    | line =>
      simpa [step, handleMouseUp, eventAppendIds] using
        List.sublist_append_left (polys.map PolygonData.id)
          [generateId rnd.idSeeds 8]
    | rectangle =>
      cases ds with
      | none =>
        simpa [step, handleMouseUp, eventAppendIds] using
          List.sublist_append_left (polys.map PolygonData.id)
            [generateId rnd.idSeeds 8]
      | some shape =>
        cases sp with
        | none =>
          simpa [step, handleMouseUp, eventAppendIds] using
            List.sublist_append_left (polys.map PolygonData.id)
              [generateId rnd.idSeeds 8]
        | some s =>
          simpa [step, handleMouseUp, eventAppendIds] using
            List.Sublist.refl
              (polys.map PolygonData.id ++ [generateId rnd.idSeeds 8])
    | circle =>
      cases ds with
      | none =>
        simpa [step, handleMouseUp, eventAppendIds] using
          List.sublist_append_left (polys.map PolygonData.id)
            [generateId rnd.idSeeds 8]
      | some shape =>
        cases sp with
        | none =>
          simpa [step, handleMouseUp, eventAppendIds] using
            List.sublist_append_left (polys.map PolygonData.id)
              [generateId rnd.idSeeds 8]
        | some s =>
          simpa [step, handleMouseUp, eventAppendIds] using
            List.Sublist.refl
              (polys.map PolygonData.id ++ [generateId rnd.idSeeds 8])
  | complete rnd =>
    by_cases hl3 : 3 ≤ cur.length
    · simpa [step, completePolygon, hl3, eventAppendIds] using
        List.Sublist.refl
          (polys.map PolygonData.id ++ [generateId rnd.idSeeds 8])
    · simpa [step, completePolygon, hl3, eventAppendIds] using
        List.sublist_append_left (polys.map PolygonData.id)
          [generateId rnd.idSeeds 8]
  | clearAll => simp [step, clearPolygons, eventAppendIds]
  | clearCurrentShape =>
    simpa [step, clearCurrent, eventAppendIds] using
      List.Sublist.refl (polys.map PolygonData.id)
  | setMode m =>
    simpa [step, setDrawingMode, eventAppendIds] using
      List.Sublist.refl (polys.map PolygonData.id)
  | setLabelEdit s =>
    simpa [step, setLabelText, eventAppendIds] using
      List.Sublist.refl (polys.map PolygonData.id)
  | exportRequest =>
    simpa [step, exportJSON, eventAppendIds] using
      List.Sublist.refl (polys.map PolygonData.id)

/-- A run extends the list of polygon identifiers by at most the
identifiers its events draw. -/
theorem run_ids_sublist (evs : List Event) (st : State) :
    List.Sublist ((run st evs).polygons.map PolygonData.id)
      (st.polygons.map PolygonData.id ++ evs.flatMap eventAppendIds) := by
  induction evs generalizing st with
  | nil => simpa [run] using List.Sublist.refl (st.polygons.map PolygonData.id)
  | cons e rest ih =>
    refine (ih (step st e).1).trans ?_
    rw [List.flatMap_cons, ← List.append_assoc]
    exact (step_ids_sublist st e).append_right _

/-- The flattened vertex list has twice the length of the vertex list. -/
theorem flatPair_length (l : List Point) :
    (l.flatMap fun pt => [pt.x, pt.y]).length = 2 * l.length := by
  induction l with
  | nil => simp
  | cons p tl ih => simp [ih]; omega

/-- The flattened vertex list interleaves the coordinates: the entries at
positions 2i and 2i+1 are the coordinates of vertex i. -/
theorem flatPair_get (l : List Point) (i : ℕ) (h : i < l.length) :
    (l.flatMap fun pt => [pt.x, pt.y])[2 * i]? = some (l.get ⟨i, h⟩).x ∧
    (l.flatMap fun pt => [pt.x, pt.y])[2 * i + 1]? = some (l.get ⟨i, h⟩).y := by
  induction l generalizing i with
  | nil => simp at h
  | cons p tl ih =>
    cases i with
    | zero =>
      refine ⟨?_, ?_⟩
      · show (p.x :: p.y :: tl.flatMap fun pt => [pt.x, pt.y])[2 * 0]? = _
        simp
      · show (p.x :: p.y :: tl.flatMap fun pt => [pt.x, pt.y])[2 * 0 + 1]? = _
        simp
    | succ j =>
      have hj : j < tl.length := by simpa using h
      have h2 : 2 * (j + 1) = (2 * j + 1) + 1 := by ring
      have h3 : 2 * (j + 1) + 1 = ((2 * j + 1) + 1) + 1 := by ring
      constructor
      · show (p.x :: p.y :: tl.flatMap fun pt => [pt.x, pt.y])[2 * (j + 1)]? = _
        rw [h2, List.getElem?_cons_succ, List.getElem?_cons_succ]
        exact (ih j hj).1
      · show (p.x :: p.y :: tl.flatMap fun pt => [pt.x, pt.y])[2 * (j + 1) + 1]? = _
        rw [h3, List.getElem?_cons_succ, List.getElem?_cons_succ]
        exact (ih j hj).2

/-- Decoding inverts the encoding of a number array. -/
theorem decodeArr_num (l : List ℝ) :
    decodeArr asNum (l.map Json.num) = some l := by
  induction l with
  | nil => rfl
  | cons x tl ih => simp [decodeArr, asNum, ih]

/-- Decoding inverts the encoding of a point. -/
theorem decodePoint_encode (p : Point) : decodePoint (encodePoint p) = some p :=
  rfl

/-- Decoding inverts the encoding of a point array. -/
theorem decodeArr_point (l : List Point) :
    decodeArr decodePoint (l.map encodePoint) = some l := by
  induction l with
  | nil => rfl
  | cons p tl ih => simp [decodeArr, decodePoint_encode, ih]

/-- Decoding an encoded polygon record recovers its label and coords. -/
theorem decodeEntry_encode (p : PolygonData) :
    decodeEntry (encodePolygonData p) = some (p.label, p.coords) := by
  have h : decodeEntry (encodePolygonData p) =
      (match decodeArr asNum (p.coords.map Json.num) with
       | some cs => some (p.label, cs)
       | none => none) := rfl
  rw [h, decodeArr_num]

/-- Decoding inverts the encoding of the polygon array. -/
theorem decodeArr_entry (l : List PolygonData) :
    decodeArr decodeEntry (l.map encodePolygonData) =
      some (l.map fun p => (p.label, p.coords)) := by
  induction l with
  | nil => rfl
  | cons p tl ih => simp [decodeArr, decodeEntry_encode, ih]

/-- C1: completing an in-progress freehand sequence with fewer than 3 points
is refused with an error toast and leaves the whole state unchanged;
with at least 3 points it appends exactly one record whose point sequence is
the in-progress sequence (hence of the same length) and empties the
in-progress sequence, in both the part_000 and the App.tsx component. -/
theorem completePolygon_three_point_gate (st : State) (rnd : Rand)
    (stA : PolyjsonApp.State) (rndA : Rand) :
    (st.currentPolygon.length < 3 →
      completePolygon st rnd =
        (st, [Toast.error "Need at least 3 points to complete a polygon"])) ∧
    (3 ≤ st.currentPolygon.length →
      ∃ pd, (completePolygon st rnd).1.polygons = st.polygons ++ [pd] ∧
        pd.polygon = st.currentPolygon ∧
        pd.polygon.length = st.currentPolygon.length ∧
        (completePolygon st rnd).1.currentPolygon = [] ∧
        (completePolygon st rnd).2 = [Toast.success "Polygon completed"]) ∧
    (stA.currentPolygon.length < 3 →
      PolyjsonApp.completePolygon stA rndA =
        (stA, [Toast.error "Need at least 3 points to complete a polygon"])) ∧
    (3 ≤ stA.currentPolygon.length →
      ∃ pd,
        (PolyjsonApp.completePolygon stA rndA).1.polygons =
          stA.polygons ++ [pd] ∧
        pd.polygon = stA.currentPolygon ∧
        (PolyjsonApp.completePolygon stA rndA).1.currentPolygon = []) := by
  refine ⟨?_, ?_, ?_, ?_⟩
  · intro h
    unfold completePolygon
    rw [if_neg (by omega)]
  · intro h
    unfold completePolygon
    rw [if_pos h]
    exact ⟨_, rfl, rfl, rfl, rfl, rfl⟩
  · intro h
    unfold PolyjsonApp.completePolygon
    rw [if_neg (by omega)]
  · intro h
    unfold PolyjsonApp.completePolygon
    rw [if_pos h]
    exact ⟨_, rfl, rfl, rfl⟩

/-- C1 witness: a 2-point sequence is refused unchanged and a 3-point
triangle completes into a 3-point record, for both components. -/
theorem completePolygon_three_point_gate_witness :
    stTwoPoints.currentPolygon.length < 3 ∧
    completePolygon stTwoPoints randA =
      (stTwoPoints,
       [Toast.error "Need at least 3 points to complete a polygon"]) ∧
    3 ≤ stTriangle.currentPolygon.length ∧
    (∃ pd, (completePolygon stTriangle randA).1.polygons =
        stTriangle.polygons ++ [pd] ∧
      pd.polygon = stTriangle.currentPolygon ∧
      pd.polygon.length = stTriangle.currentPolygon.length ∧
      (completePolygon stTriangle randA).1.currentPolygon = [] ∧
      (completePolygon stTriangle randA).2 =
        [Toast.success "Polygon completed"]) ∧
    3 ≤ PolyjsonApp.stTriangle.currentPolygon.length ∧
    (∃ pd,
      (PolyjsonApp.completePolygon PolyjsonApp.stTriangle randB).1.polygons =
        PolyjsonApp.stTriangle.polygons ++ [pd] ∧
      pd.polygon = PolyjsonApp.stTriangle.currentPolygon ∧
      (PolyjsonApp.completePolygon PolyjsonApp.stTriangle randB).1.currentPolygon
        = []) := by
  have hfail :=
    completePolygon_three_point_gate stTwoPoints randA PolyjsonApp.stTriangle randB
  have hok :=
    completePolygon_three_point_gate stTriangle randA PolyjsonApp.stTriangle randB
  exact ⟨by decide, hfail.1 (by decide), by decide, hok.2.1 (by decide),
         by decide, hok.2.2.2 (by decide)⟩

/-- C2: in rectangle mode with start point s, moving the pointer to e sets
the preview to exactly [s, (e.x, s.y), e, (s.x, e.y)], and releasing then
appends one record with exactly that point sequence. -/
theorem rectangle_preview_spec (st : State) (s e : Point) (rnd : Rand)
    (hmode : st.drawingMode = DrawingMode.rectangle)
    (hstart : st.startPoint = some s) :
    ((handleMouseMove st e).1.dragShape =
      some [s, { x := e.x, y := s.y }, e, { x := s.x, y := e.y }]) ∧
    ∃ pd,
      (handleMouseUp (handleMouseMove st e).1 rnd).1.polygons =
        st.polygons ++ [pd] ∧
      pd.polygon = [s, { x := e.x, y := s.y }, e, { x := s.x, y := e.y }] := by
  obtain ⟨img, polys, cur, mode, lbl, sp, ds⟩ := st
  dsimp only at hmode hstart
  subst hmode
  subst hstart
  exact ⟨rfl, ⟨_, rfl, rfl⟩⟩

/-- C2 witness: start (10,10) and release (50,30) yield the four vertices
[(10,10),(50,10),(50,30),(10,30)] in order, as preview and as final shape. -/
theorem rectangle_preview_spec_witness :
    ((handleMouseMove stRect { x := 50, y := 30 }).1.dragShape =
      some [{ x := 10, y := 10 }, { x := 50, y := 10 },
            { x := 50, y := 30 }, { x := 10, y := 30 }]) ∧
    ∃ pd,
      (handleMouseUp (handleMouseMove stRect { x := 50, y := 30 }).1
          randA).1.polygons = stRect.polygons ++ [pd] ∧
      pd.polygon = [{ x := 10, y := 10 }, { x := 50, y := 10 },
                    { x := 50, y := 30 }, { x := 10, y := 30 }] :=
  rectangle_preview_spec stRect { x := 10, y := 10 } { x := 50, y := 30 }
    randA rfl rfl

/-- C5: clearing all polygons empties the collection and the in-progress
sequence, and an export performed immediately after yields a document with
empty polygons and currentPolygon arrays. -/
theorem clearAll_then_export (st : State) :
    (clearPolygons st).1.polygons = [] ∧
    (clearPolygons st).1.currentPolygon = [] ∧
    exportDoc (clearPolygons st).1 =
      Json.obj [("polygons", Json.arr []), ("currentPolygon", Json.arr [])] :=
  ⟨rfl, rfl, rfl⟩

/-- C6: the coordinate mapper returns ((clientX - left) * (width / displayed
width), (clientY - top) * (height / displayed height)); with no canvas
attached it returns the origin; and at a 1:1 display-to-native ratio it is
the plain translation by the box corner. -/
theorem getCanvasCoordinates_spec (clientX clientY : ℝ) :
    getCanvasCoordinates none clientX clientY = { x := 0, y := 0 } ∧
    (∀ c : Canvas,
      getCanvasCoordinates (some c) clientX clientY =
        { x := (clientX - c.rect.left) * (c.width / c.rect.width),
          y := (clientY - c.rect.top) * (c.height / c.rect.height) }) ∧
    (∀ c : Canvas, c.width = c.rect.width → c.height = c.rect.height →
      c.rect.width ≠ 0 → c.rect.height ≠ 0 →
      getCanvasCoordinates (some c) clientX clientY =
        { x := clientX - c.rect.left, y := clientY - c.rect.top }) := by
  refine ⟨rfl, fun c => rfl, fun c hw hh hw0 hh0 => ?_⟩
  have hx : c.width / c.rect.width = 1 := by rw [hw]; exact div_self hw0
  have hy : c.height / c.rect.height = 1 := by rw [hh]; exact div_self hh0
  show ({ x := (clientX - c.rect.left) * (c.width / c.rect.width),
          y := (clientY - c.rect.top) * (c.height / c.rect.height) } : Point) = _
  rw [hx, hy, mul_one, mul_one]

/-- C3: in circle mode with start point s and pointer at e, the preview is
`circleShape s e`: exactly 32 vertices, vertex i at (cx + rx cos(2 pi i/32),
cy + ry sin(2 pi i/32)) for cx = s.x + (e.x - s.x)/2, rx = (e.x - s.x)/2 and
likewise for y, and (for nonzero radii) every vertex lies on the ellipse
with that center and those radii. -/
theorem circle_preview_spec (st : State) (s e : Point)
    (hmode : st.drawingMode = DrawingMode.circle)
    (hstart : st.startPoint = some s) :
    ((handleMouseMove st e).1.dragShape = some (circleShape s e)) ∧
    (circleShape s e).length = 32 ∧
    (∀ i : ℕ, i < 32 →
      (circleShape s e)[i]? =
        some { x := s.x + (e.x - s.x) / 2 +
                      (e.x - s.x) / 2 * Real.cos (2 * Real.pi * i / 32),
               y := s.y + (e.y - s.y) / 2 +
                      (e.y - s.y) / 2 * Real.sin (2 * Real.pi * i / 32) }) ∧
    ((e.x - s.x) / 2 ≠ 0 → (e.y - s.y) / 2 ≠ 0 →
      ∀ p ∈ circleShape s e,
        ((p.x - (s.x + (e.x - s.x) / 2)) / ((e.x - s.x) / 2)) ^ 2 +
          ((p.y - (s.y + (e.y - s.y) / 2)) / ((e.y - s.y) / 2)) ^ 2 = 1) := by
  have hrw : circleShape s e = (List.range 32).map (fun j : ℕ =>
      ({ x := s.x + (e.x - s.x) / 2 +
            (e.x - s.x) / 2 * Real.cos (((j : ℝ) / 32) * Real.pi * 2),
         y := s.y + (e.y - s.y) / 2 +
            (e.y - s.y) / 2 * Real.sin (((j : ℝ) / 32) * Real.pi * 2) } :
        Point)) := rfl
  refine ⟨?_, ?_, ?_, ?_⟩
  · obtain ⟨img, polys, cur, mode, lbl, sp, ds⟩ := st
    dsimp only at hmode hstart
    subst hmode
    subst hstart
    rfl
  · rw [hrw, List.length_map, List.length_range]
  · intro i hi
    have harg : ((i : ℝ) / 32) * Real.pi * 2 = 2 * Real.pi * i / 32 := by
      ring
    rw [hrw, List.getElem?_map, List.getElem?_range hi, Option.map_some',
        harg]
  · intro hrx hry p hp
    simp only [circleShape, List.mem_map, List.mem_range] at hp
    obtain ⟨i, hi, rfl⟩ := hp
    dsimp only
    rw [show s.x + (e.x - s.x) / 2 +
          (e.x - s.x) / 2 * Real.cos (((i : ℝ) / 32) * Real.pi * 2) -
          (s.x + (e.x - s.x) / 2) =
          (e.x - s.x) / 2 * Real.cos (((i : ℝ) / 32) * Real.pi * 2) from by
        ring]
    rw [show s.y + (e.y - s.y) / 2 +
          (e.y - s.y) / 2 * Real.sin (((i : ℝ) / 32) * Real.pi * 2) -
          (s.y + (e.y - s.y) / 2) =
          (e.y - s.y) / 2 * Real.sin (((i : ℝ) / 32) * Real.pi * 2) from by
        ring]
    rw [mul_div_cancel_left₀ _ hrx, mul_div_cancel_left₀ _ hry]
    exact Real.cos_sq_add_sin_sq (((i : ℝ) / 32) * Real.pi * 2)

/-- C3 witness: bounding box corners (0,0) and (20,10): the preview is the
32-vertex approximation and every vertex lies on the ellipse centered at
(10,5) with radii (10,5). -/
theorem circle_preview_spec_witness :
    ((handleMouseMove stCircle { x := 20, y := 10 }).1.dragShape =
      some (circleShape { x := 0, y := 0 } { x := 20, y := 10 })) ∧
    (circleShape { x := 0, y := 0 } { x := 20, y := 10 }).length = 32 ∧
    ∀ p ∈ circleShape { x := 0, y := 0 } { x := 20, y := 10 },
      ((p.x - 10) / 10) ^ 2 + ((p.y - 5) / 5) ^ 2 = 1 := by
  have h := circle_preview_spec stCircle { x := 0, y := 0 }
    { x := 20, y := 10 } rfl rfl
  refine ⟨h.1, h.2.1, ?_⟩
  intro p hp
  have h4 := h.2.2.2 (by norm_num) (by norm_num) p hp
  norm_num at h4
  exact h4

/-- C4: for every polygon record in any reachable session state, the stroke
colour has the fill colour's channel values unchanged and opacity
min(fill opacity + 1, 1); hence stroke opacity is at least the fill opacity
and never exceeds 1. -/
theorem stroke_from_fill_spec (evs : List Event) (pd : PolygonData)
    (hmem : pd ∈ (run initState evs).polygons) :
    pd.strokeColor.r = pd.fillColor.r ∧
    pd.strokeColor.g = pd.fillColor.g ∧
    pd.strokeColor.b = pd.fillColor.b ∧
    pd.strokeColor.a = min (pd.fillColor.a + 1) 1 ∧
    pd.fillColor.a ≤ pd.strokeColor.a ∧
    pd.strokeColor.a ≤ 1 := by
  obtain ⟨-, hstroke, ha, -⟩ := (inv_reachable evs).1 pd hmem
  have hmin : pd.strokeColor.a = min (pd.fillColor.a + 1) 1 := by
    rw [hstroke]
    rfl
  refine ⟨by rw [hstroke]; rfl, by rw [hstroke]; rfl, by rw [hstroke]; rfl,
    hmin, ?_, ?_⟩
  · rw [hmin, ha]
    norm_num
  · rw [hmin, ha]
    norm_num

/-- C4 witness: the record finalised by a concrete session has matching
channels and clamped stroke opacity. -/
theorem stroke_from_fill_spec_witness :
    pdA ∈ (run initState evsOne).polygons ∧
    pdA.strokeColor.r = pdA.fillColor.r ∧
    pdA.fillColor.a ≤ pdA.strokeColor.a ∧
    pdA.strokeColor.a ≤ 1 := by
  have hl : (run initState evsOne).polygons = [pdA] := rfl
  have hmem : pdA ∈ (run initState evsOne).polygons := by
    rw [hl]
    exact List.mem_singleton_self pdA
  have h := stroke_from_fill_spec evsOne pdA hmem
  exact ⟨hmem, h.1, h.2.2.2.2.1, h.2.2.2.2.2⟩

/-- C6 witness: a canvas displayed at native size 100 by 80, offset (5,7),
maps client point (25,27) to (25-5, 27-7). -/
theorem getCanvasCoordinates_spec_witness :
    canvasOneToOne.width = canvasOneToOne.rect.width ∧
    canvasOneToOne.rect.width ≠ 0 ∧
    getCanvasCoordinates (some canvasOneToOne) 25 27 =
      { x := 25 - 5, y := 27 - 7 } :=
  ⟨rfl, by norm_num [canvasOneToOne],
   (getCanvasCoordinates_spec 25 27).2.2 canvasOneToOne rfl rfl
     (by norm_num [canvasOneToOne]) (by norm_num [canvasOneToOne])⟩

/-- C7: the exported document leaves the session state unchanged, has
exactly the two top-level fields polygons and currentPolygon, and parsing
it back recovers the labels and coordinate sequences of the collection and
the raw in-progress points. -/
theorem exportJSON_round_trip (st : State) :
    (exportJSON st).1 = st ∧
    topKeys (exportDoc st) = ["polygons", "currentPolygon"] ∧
    decodeExport (exportDoc st) =
      some (st.polygons.map fun p => (p.label, p.coords),
            st.currentPolygon) := by
  refine ⟨rfl, rfl, ?_⟩
  have h : decodeExport (exportDoc st) =
      (match decodeArr decodeEntry (st.polygons.map encodePolygonData),
             decodeArr decodePoint (st.currentPolygon.map encodePoint) with
       | some ps, some cs => some (ps, cs)
       | _, _ => none) := rfl
  rw [h, decodeArr_entry, decodeArr_point]

/-- C8 counterexample: a session whose two polygon completions draw the same
random id seeds produces two polygons with equal identifiers, so the
identifiers are not pairwise distinct for every operation sequence. -/
theorem ids_collide_after_repeated_draw :
    ¬ ((run initState evsTwoDup).polygons.map PolygonData.id).Nodup := by
  have h : (run initState evsTwoDup).polygons.map PolygonData.id =
      [generateId randA.idSeeds 8, generateId randA.idSeeds 8] := rfl
  rw [h]
  simp

/-- C8 (amended): if the identifiers drawn by the random generator over the
session are pairwise distinct, then the identifiers of the finalised
polygons are pairwise distinct. -/
theorem ids_nodup_of_draw_nodup (evs : List Event)
    (h : (evs.flatMap eventAppendIds).Nodup) :
    ((run initState evs).polygons.map PolygonData.id).Nodup := by
  have hs := run_ids_sublist evs initState
  rw [show initState.polygons.map PolygonData.id = [] from rfl,
      List.nil_append] at hs
  exact h.sublist hs

/-- C8 witness: a session whose two completions draw distinct id seeds has
pairwise distinct polygon identifiers. -/
theorem ids_nodup_of_draw_nodup_witness :
    (evsTwo.flatMap eventAppendIds).Nodup ∧
    ((run initState evsTwo).polygons.map PolygonData.id).Nodup :=
  ⟨by decide, ids_nodup_of_draw_nodup evsTwo (by decide)⟩

/-- C9: in a drag mode, a press resets the preview to null, and a release
with no intervening movement leaves the state (in particular the polygon
collection) unchanged; moreover no reachable state contains a zero-vertex
polygon record. -/
theorem release_without_move_commits_nothing (st : State) (p : Point)
    (rnd : Rand)
    (hmode : st.drawingMode = DrawingMode.rectangle ∨
             st.drawingMode = DrawingMode.circle) :
    (handleMouseDown st p).1.dragShape = none ∧
    (handleMouseUp (handleMouseDown st p).1 rnd).1 =
      (handleMouseDown st p).1 ∧
    (handleMouseUp (handleMouseDown st p).1 rnd).1.polygons = st.polygons ∧
    (∀ evs : List Event, ∀ q ∈ (run initState evs).polygons,
      q.polygon ≠ []) := by
  have hinv : ∀ evs : List Event, ∀ q ∈ (run initState evs).polygons,
      q.polygon ≠ [] :=
    fun evs q hq => ((inv_reachable evs).1 q hq).2.2.2
  obtain ⟨img, polys, cur, mode, lbl, sp, ds⟩ := st
  dsimp only at hmode
  rcases hmode with rfl | rfl
  · exact ⟨rfl, rfl, rfl, hinv⟩
  · exact ⟨rfl, rfl, rfl, hinv⟩

/-- C9 witness: in the concrete rectangle-mode state, press at (3,4) then
release appends nothing. -/
theorem release_without_move_commits_nothing_witness :
    (stRect.drawingMode = DrawingMode.rectangle ∨
     stRect.drawingMode = DrawingMode.circle) ∧
    (handleMouseDown stRect { x := 3, y := 4 }).1.dragShape = none ∧
    (handleMouseUp (handleMouseDown stRect { x := 3, y := 4 }).1
        randA).1.polygons = stRect.polygons :=
  ⟨Or.inl rfl,
   (release_without_move_commits_nothing stRect { x := 3, y := 4 } randA
     (Or.inl rfl)).1,
   (release_without_move_commits_nothing stRect { x := 3, y := 4 } randA
     (Or.inl rfl)).2.2.1⟩

/-- C10: every polygon record in any reachable session state has its coords
field equal to the flattened interleaving of its vertex list: length 2n,
entry 2i the x and entry 2i+1 the y coordinate of vertex i. -/
theorem coords_flatten_spec (evs : List Event) (pd : PolygonData)
    (hmem : pd ∈ (run initState evs).polygons) :
    pd.coords = pd.polygon.flatMap (fun pt => [pt.x, pt.y]) ∧
    pd.coords.length = 2 * pd.polygon.length ∧
    ∀ (i : ℕ) (h : i < pd.polygon.length),
      pd.coords[2 * i]? = some (pd.polygon.get ⟨i, h⟩).x ∧
      pd.coords[2 * i + 1]? = some (pd.polygon.get ⟨i, h⟩).y := by
  obtain ⟨hc, -, -, -⟩ := (inv_reachable evs).1 pd hmem
  refine ⟨hc, ?_, ?_⟩
  · rw [hc, flatPair_length]
  · intro i h
    rw [hc]
    exact flatPair_get pd.polygon i h

/-- C10 witness: the record finalised by a concrete session has coords of
twice the vertex count, starting with vertex 0. -/
theorem coords_flatten_spec_witness :
    pdA ∈ (run initState evsOne).polygons ∧
    pdA.coords.length = 2 * pdA.polygon.length := by
  have hl : (run initState evsOne).polygons = [pdA] := rfl
  have hmem : pdA ∈ (run initState evsOne).polygons := by
    rw [hl]
    exact List.mem_singleton_self pdA
  exact ⟨hmem, (coords_flatten_spec evsOne pdA hmem).2.1⟩

end Polyjson
